import Mathlib

/-!
Shallow embedding of the real-time delivery subsystem of the repository
(`app/clients/websocket_client.py`, class `WebSocketClient`), together with
proofs about the embedded operations.

Modelling conventions:
* The shared Redis store is a record of per-key-family maps: each Redis key
  family used by the code (`message_sequence:{u}`, `user_message_buffer:{u}`,
  `last_ack:{u}`, `min_sequence:{u}`, `client_ack:{u}:{c}:{s}`,
  `completion_lock:{u}:{s}`, `user_connections:{u}`) becomes one field keyed
  by the identifiers that appear in the key.
* A buffered message is kept as a structured value rather than a JSON string;
  `json.dumps`/`json.loads` round-trip losslessly, so list values compare
  equal exactly when the structured messages do.
* The Redis list for `user_message_buffer:{u}` is a Lean list with the head
  of the Lean list being the head (index 0) of the Redis list, so `lpush`
  is cons, `ltrim 0 (n-1)` is `take n`, and `lrem key 1 v` removes the first
  occurrence of `v`.
* Per-key time-to-live state is tracked only where a claim needs it: the
  buffer key carries an optional TTL (`bufferTTL`), which `lpush`/`ltrim`
  leave untouched (those Redis commands do not set expiries).
* Worker-local state (`active_connections`, a dict of dicts in the source)
  is a map from user id to an optional association list preserving Python's
  dict insertion order; `worker_id` is carried along.  Background tasks,
  pubsub handles and logging have no effect on the data the claims are
  about and are not represented.
* Sends to a websocket are modelled by returning the list of delivered
  messages (the transport itself is an opaque numeric handle); in this model
  transports do not fail, so the exception path of
  `_send_message_to_client` never fires.
-/

/-- A message as produced by `send_message`: the assigned sequence number
plus the rest of the JSON payload, kept abstract as a string. -/
structure Msg where
  sequence : Nat
  payload : String
deriving DecidableEq, Repr

/-- Per-connection local state: `{"websocket": ..., "last_sequence": ...}`.
The websocket is an opaque transport handle. -/
structure ClientInfo where
  websocket : Nat
  last_sequence : Nat
deriving DecidableEq, Repr

/-- One element of the JSON list stored at `user_connections:{user_id}`:
`{"worker_id": ..., "client_id": ..., "connected_at": ...}`. -/
structure ConnRecord where
  worker_id : String
  client_id : String
  connected_at : Nat
deriving DecidableEq, Repr

/-- The shared Redis store, one field per key family used by
`WebSocketClient`. -/
structure Redis where
  /-- `message_sequence:{user_id}` counters (absent key reads as 0,
  matching Redis `INCR` on a missing key). -/
  messageSeq : String → Nat
  /-- `user_message_buffer:{user_id}` lists, head of the Lean list =
  index 0 of the Redis list. -/
  buffer : String → List Msg
  /-- Remaining TTL of the `user_message_buffer:{user_id}` key, if one was
  ever set with `EXPIRE`/`SETEX`; `LPUSH` and `LTRIM` never change it. -/
  bufferTTL : String → Option Nat
  /-- `last_ack:{user_id}` scalars. -/
  lastAck : String → Option Nat
  /-- `min_sequence:{user_id}` scalars (the durable low-water mark). -/
  minSeq : String → Option Nat
  /-- Presence of the `client_ack:{user_id}:{client_id}:{sequence}`
  idempotency markers. -/
  clientAck : String → String → Nat → Bool
  /-- Presence of the `completion_lock:{user_id}:{sequence}` keys. -/
  completionLock : String → Nat → Bool
  /-- `user_connections:{user_id}` JSON lists. -/
  userConnections : String → Option (List ConnRecord)

/-- Point update of a map keyed by a user id. -/
def updKey {α : Type} (f : String → α) (k : String) (v : α) : String → α :=
  fun x => if x = k then v else f x

/-- Point update of a map keyed by `(user_id, client_id, sequence)`. -/
def updAck (f : String → String → Nat → Bool) (u c : String) (s : Nat)
    (v : Bool) : String → String → Nat → Bool :=
  fun u' c' s' => if u' = u ∧ c' = c ∧ s' = s then v else f u' c' s'

/-- Point update of a map keyed by `(user_id, sequence)`. -/
def updLock (f : String → Nat → Bool) (u : String) (s : Nat) (v : Bool) :
    String → Nat → Bool :=
  fun u' s' => if u' = u ∧ s' = s then v else f u' s'

/-- Worker-local state of one `WebSocketClient` instance. -/
structure WS where
  redis : Redis
  /-- `self.active_connections`: user_id → (client_id → client info); `none`
  when the user key is absent, `some` an association list in dict insertion
  order otherwise. -/
  active_connections : String → Option (List (String × ClientInfo))
  /-- `self.worker_id`. -/
  worker_id : String

/-- `self.max_buffer_size` (set in `__init__`). -/
def max_buffer_size : Nat := 100

/-- Dict lookup in an association list (`client_id in d` / `d[client_id]`). -/
def getClient : List (String × ClientInfo) → String → Option ClientInfo
  | [], _ => none
  | (c', i) :: rest, c => if c' = c then some i else getClient rest c

/-- Dict update `d[client_id] = info`: replaces in place if the key exists,
otherwise appends (Python dicts keep insertion order). -/
def setClient : List (String × ClientInfo) → String → ClientInfo →
    List (String × ClientInfo)
  | [], c, info => [(c, info)]
  | (c', i) :: rest, c, info =>
    if c' = c then (c, info) :: rest else (c', i) :: setClient rest c info

/-- Dict removal `d.pop(client_id, None)`. -/
def removeClient : List (String × ClientInfo) → String →
    List (String × ClientInfo)
  | [], _ => []
  | (c', i) :: rest, c =>
    if c' = c then rest else (c', i) :: removeClient rest c

/-- `get_next_sequence`: `INCR message_sequence:{user_id}`, returning the
incremented value together with the updated store. -/
def get_next_sequence (r : Redis) (u : String) : Nat × Redis :=
  let n := r.messageSeq u + 1
  (n, { r with messageSeq := updKey r.messageSeq u n })

/-- `buffer_message`: `LPUSH user_message_buffer:{user_id} msg` followed by
`LTRIM 0 (max_buffer_size - 1)`.  The `sequence` argument is accepted but,
as in the source, unused (the message already carries it).  Neither command
touches the key's TTL. -/
def buffer_message (r : Redis) (u : String) (_sequence : Nat) (m : Msg) :
    Redis :=
  { r with buffer := updKey r.buffer u ((m :: r.buffer u).take max_buffer_size) }

/-- `retrieve_buffered_messages`: `LRANGE user_message_buffer:{user_id} 0 -1`. -/
def retrieve_buffered_messages (r : Redis) (u : String) : List Msg :=
  r.buffer u

/-- `send_message`: assign the next sequence, stamp the message, buffer it,
and publish it on `user_channel:{user_id}`.  The published (stamped) message
is returned so its assigned sequence is observable; publication itself only
hands the message to the pub/sub medium. -/
def send_message (w : WS) (u : String) (payload : String) : WS × Msg :=
  let sr := get_next_sequence w.redis u
  let m : Msg := { sequence := sr.1, payload := payload }
  let r2 := buffer_message sr.2 u sr.1 m
  ({ w with redis := r2 }, m)

/-- A run of `send_message` calls for one user on one worker; returns the
final state and the sequence numbers assigned, in call order. -/
def sendMessages (w : WS) (u : String) : List String → WS × List Nat
  | [] => (w, [])
  | p :: ps =>
    let r1 := send_message w u p
    let r2 := sendMessages r1.1 u ps
    (r2.1, r1.2.sequence :: r2.2)

/-- A run of `buffer_message` calls for one user. -/
def pushMany (r : Redis) (u : String) : List (Nat × Msg) → Redis
  | [] => r
  | (s, m) :: rest => pushMany (buffer_message r u s m) u rest

/-- The sequence-ascending comparison used by
`messages_to_send.sort(key=lambda x: x["sequence"])`; Python's stable
ascending sort coincides with stable insertion sort by this relation. -/
def seqLE (a b : Msg) : Prop := a.sequence ≤ b.sequence

instance : DecidableRel seqLE := fun a b => Nat.decLe a.sequence b.sequence

instance : IsTotal Msg seqLE := ⟨fun a b => Nat.le_total a.sequence b.sequence⟩

instance : IsTrans Msg seqLE := ⟨fun _ _ _ h1 h2 => Nat.le_trans h1 h2⟩

/-- `_send_message_to_user`: iterate the user's local clients in dict order
and send the message to every client whose `last_sequence` is below the
message's sequence.  Returns the `(client_id, message)` pairs delivered;
with no local connections for the user it only logs a warning. -/
def _send_message_to_user (w : WS) (u : String) (m : Msg) :
    List (String × Msg) :=
  match w.active_connections u with
  | none => []
  | some clients =>
    (clients.filter (fun ci => ci.2.last_sequence < m.sequence)).map
      (fun ci => (ci.1, m))

/-- `_send_missed_messages`: read the buffered messages, keep those with
sequence above the client's `last_sequence`, sort ascending by sequence and
send them to that client, returning them in send order.  The source indexes
`active_connections[user_id][client_id]` unconditionally; its only caller
(`connect`) has just inserted that client, so the missing-client branch
(`none` here, a `KeyError` in Python) is unreachable and yields no sends. -/
def _send_missed_messages (w : WS) (u c : String) : List Msg :=
  match w.active_connections u with
  | none => []
  | some clients =>
    match getClient clients c with
    | none => []
    | some info =>
      List.insertionSort seqLE
        ((retrieve_buffered_messages w.redis u).filter
          (fun m => info.last_sequence < m.sequence))

/-- `connect`: register a client for a user and return the updated state
together with the messages replayed to the new client.  The fresh
`client_id`, the transport handle and the connect timestamp are parameters
(in the source they come from `uuid.uuid4()`, the websocket object and the
event-loop clock).  The first local connection also starts the per-user
listener task, which carries no data relevant here. -/
def connect (w : WS) (u : String) (client_id : String) (websocket : Nat)
    (now : Nat) : WS × List Msg :=
  let clients0 := match w.active_connections u with
    | none => []
    | some cs => cs
  let last_ack := match w.redis.lastAck u with
    | none => 0
    | some k => k
  let clients1 := setClient clients0 client_id
    { websocket := websocket, last_sequence := last_ack }
  let conns := match w.redis.userConnections u with
    | none => []
    | some cs => cs
  let newRec : ConnRecord :=
    { worker_id := w.worker_id, client_id := client_id, connected_at := now }
  let conns' := conns ++ [newRec]
  let r1 :=
    { w.redis with
        userConnections := updKey w.redis.userConnections u (some conns') }
  let w1 : WS :=
    { w with
        redis := r1,
        active_connections := updKey w.active_connections u (some clients1) }
  (w1, _send_missed_messages w1 u client_id)

/-- `_remove_acknowledged_message`: scan the buffer head-first for the first
entry whose sequence equals the argument and `LREM` that one value (count 1).
Buffer entries are distinct serialized strings when their structured values
differ, so this removes exactly the first entry with the given sequence. -/
def removeFirstSeq (s : Nat) : List Msg → List Msg
  | [] => []
  | m :: rest => if m.sequence = s then rest else m :: removeFirstSeq s rest

/-- State effect of `_remove_acknowledged_message` on the store. -/
def _remove_acknowledged_message (r : Redis) (u : String) (s : Nat) : Redis :=
  { r with buffer := updKey r.buffer u (removeFirstSeq s (r.buffer u)) }

/-- `min(client["last_sequence"] for client in ...)`; the source only
evaluates this with at least one client present (the acking client), so the
empty case (a Python `ValueError`) is given a dummy value. -/
def minLastSeq : List (String × ClientInfo) → Nat
  | [] => 0
  | ci :: rest => rest.foldl (fun acc x => Nat.min acc x.2.last_sequence)
      ci.2.last_sequence

/-- The completion phase of `handle_message_acknowledgement`, entered when
the durable `min_sequence` does not already cover the acked sequence: if all
locally known clients have acknowledged at least `s` and the
`completion_lock:{u}:{s}` key can be set NX, write the new durable low-water
mark and `last_ack`, remove the acked entry from the buffer, and delete the
lock again (so its presence is unchanged afterwards). -/
def ackCompletion (w : WS) (u : String) (s : Nat)
    (clients : List (String × ClientInfo)) : WS :=
  let min_sequence := minLastSeq clients
  if s ≤ min_sequence then
    if w.redis.completionLock u s then
      w
    else
      let r1 := { w.redis with
        minSeq := updKey w.redis.minSeq u (some min_sequence),
        lastAck := updKey w.redis.lastAck u (some s) }
      let r2 := _remove_acknowledged_message r1 u s
      { w with redis := r2 }
  else
    w

/-- `handle_message_acknowledgement`: no-op when the `(user, client)` pair is
not locally registered; no-op when the `client_ack` idempotency marker is
present; otherwise set the marker (SETEX, 60s TTL), record the client's new
`last_sequence`, and, unless the durable `min_sequence` already covers the
acked sequence, run the completion phase. -/
def handle_message_acknowledgement (w : WS) (u : String) (s : Nat)
    (c : String) : WS :=
  match w.active_connections u with
  | none => w
  | some clients =>
    match getClient clients c with
    | none => w
    | some info =>
      if w.redis.clientAck u c s then
        w
      else
        let r1 := { w.redis with clientAck := updAck w.redis.clientAck u c s true }
        let clients1 := setClient clients c { info with last_sequence := s }
        let w1 : WS :=
          { w with
              redis := r1,
              active_connections := updKey w.active_connections u (some clients1) }
        match r1.minSeq u with
        | some m0 =>
          if s ≤ m0 then w1 else ackCompletion w1 u s clients1
        | none => ackCompletion w1 u s clients1

/-- `_cleanup_user_resources`: cancel the listener task, close the pubsub
(no data content), drop the user from `active_connections` and delete
`user_connections:{user_id}`. -/
def _cleanup_user_resources (w : WS) (u : String) : WS :=
  { w with
    active_connections := updKey w.active_connections u none,
    redis := { w.redis with
      userConnections := updKey w.redis.userConnections u none } }

/-- `disconnect`: with a `client_id`, pop that client locally, drop its
`(worker_id, client_id)` record from `user_connections:{user_id}` (deleting
the key when the list empties), and clean up the user entirely if no local
clients remain; with no `client_id`, clean up the user entirely. -/
def disconnect (w : WS) (u : String) (oc : Option String) : WS :=
  match w.active_connections u with
  | none => w
  | some clients =>
    match oc with
    | some c =>
      let clients' := removeClient clients c
      let r1 := match w.redis.userConnections u with
        | none => w.redis
        | some conns =>
          let conns' := conns.filter
            (fun cr => ¬(cr.worker_id = w.worker_id ∧ cr.client_id = c))
          if conns' = [] then
            { w.redis with
                userConnections := updKey w.redis.userConnections u none }
          else
            { w.redis with
                userConnections := updKey w.redis.userConnections u (some conns') }
      let w1 : WS :=
        { w with
            redis := r1,
            active_connections := updKey w.active_connections u (some clients') }
      if clients' = [] then _cleanup_user_resources w1 u else w1
    | none => _cleanup_user_resources w u

/-- `handle_force_disconnect`: when the target client is locally held, close
its websocket and disconnect just that client; otherwise (no `client_id`, or
an unknown one) close every local websocket of the user and disconnect the
user.  Returns the closed transport handles. -/
def handle_force_disconnect (w : WS) (u : String) (oc : Option String) :
    WS × List Nat :=
  match w.active_connections u with
  | none => (w, [])
  | some clients =>
    match oc with
    | some c =>
      match getClient clients c with
      | some info => (disconnect w u (some c), [info.websocket])
      | none => (disconnect w u none, clients.map (fun ci => ci.2.websocket))
    | none => (disconnect w u none, clients.map (fun ci => ci.2.websocket))

/-! ### Helper lemmas and concrete states -/

@[simp]
theorem updKey_same {α : Type} (f : String → α) (k : String) (v : α) :
    updKey f k v k = v := by
  simp [updKey]

theorem updKey_other {α : Type} (f : String → α) (k : String) (v : α)
    (x : String) (h : x ≠ k) : updKey f k v x = f x := by
  simp [updKey, h]

/-- A store with no keys set, as seen by a fresh deployment. -/
def emptyRedis : Redis :=
  { messageSeq := fun _ => 0
    buffer := fun _ => []
    bufferTTL := fun _ => none
    lastAck := fun _ => none
    minSeq := fun _ => none
    clientAck := fun _ _ _ => false
    completionLock := fun _ _ => false
    userConnections := fun _ => none }

/-- A worker with no local connections over an empty store. -/
def freshWS : WS :=
  { redis := emptyRedis
    active_connections := fun _ => none
    worker_id := "w1" }

theorem sendMessages_seq_run (u : String) (ps : List String) :
    ∀ w : WS, (sendMessages w u ps).2 =
      List.range' (w.redis.messageSeq u + 1) ps.length := by
  induction ps with
  | nil => intro w; rfl
  | cons p rest ih =>
    intro w
    have hstep : ((send_message w u p).1).redis.messageSeq u =
        w.redis.messageSeq u + 1 := by
      simp [send_message, get_next_sequence, buffer_message]
    have hseq : (send_message w u p).2.sequence = w.redis.messageSeq u + 1 := by
      simp [send_message, get_next_sequence]
    simp [sendMessages, hseq, ih, hstep, List.range'_succ]

/-- C1: starting from a fresh per-user sequence counter, a run of
`send_message` calls for one user is assigned exactly the sequence numbers
`1, 2, …, N` (in call order, hence with no gaps or repeats): each call takes
its number from the atomic `INCR` on `message_sequence:{user_id}`, never
from local state. -/
theorem send_message_sequences (w : WS) (u : String) (ps : List String)
    (h : w.redis.messageSeq u = 0) :
    (sendMessages w u ps).2 = List.range' 1 ps.length := by
  rw [sendMessages_seq_run u ps w, h]

theorem send_message_sequences_witness :
    freshWS.redis.messageSeq "u1" = 0 ∧
      (sendMessages freshWS "u1" ["a", "b", "c"]).2 = List.range' 1 3 :=
  ⟨rfl, send_message_sequences freshWS "u1" ["a", "b", "c"] rfl⟩

/-- C2: after any run of `buffer_message` pushes starting from a buffer
within capacity (in particular from an empty one), the per-user Replay
Buffer holds at most `max_buffer_size` entries: every `LPUSH` is followed by
`LTRIM 0 (max_buffer_size - 1)`. -/
theorem buffer_bounded (r : Redis) (u : String) (ops : List (Nat × Msg))
    (h : (r.buffer u).length ≤ max_buffer_size) :
    ((pushMany r u ops).buffer u).length ≤ max_buffer_size := by
  induction ops generalizing r with
  | nil => exact h
  | cons op rest ih =>
    refine ih _ ?_
    simp [buffer_message]

theorem buffer_bounded_witness :
    (emptyRedis.buffer "u1").length ≤ max_buffer_size ∧
      ((pushMany emptyRedis "u1"
          [(1, { sequence := 1, payload := "a" }),
           (2, { sequence := 2, payload := "b" })]).buffer "u1").length ≤
        max_buffer_size :=
  ⟨by decide, buffer_bounded emptyRedis "u1" _ (by decide)⟩

/-- C7 counterexample: a push through `buffer_message` does not leave the
claimed one-hour TTL on the buffered entries — the function issues only
`LPUSH` and `LTRIM`, neither of which sets an expiry, so after a push into a
fresh store the buffer key still has no TTL at all. -/
theorem buffer_message_ttl_counterexample :
    ¬ ((buffer_message emptyRedis "u1" 1
        { sequence := 1, payload := "a" }).bufferTTL "u1" = some 3600) := by
  simp [buffer_message, emptyRedis]

/-- C7 (amended): `buffer_message` inserts the new entry at the head and
trims the buffer to `max_buffer_size`, but it sets or refreshes no TTL:
whatever expiry state the buffer key had before any run of pushes, it has
after. -/
theorem buffer_message_sets_no_ttl (r : Redis) (u : String) (s : Nat)
    (m : Msg) (ops : List (Nat × Msg)) :
    (buffer_message r u s m).buffer u =
        (m :: r.buffer u).take max_buffer_size ∧
      (buffer_message r u s m).bufferTTL = r.bufferTTL ∧
      (pushMany r u ops).bufferTTL = r.bufferTTL := by
  refine ⟨by simp [buffer_message], rfl, ?_⟩
  induction ops generalizing r with
  | nil => rfl
  | cons op rest ih => simpa [pushMany, buffer_message] using ih _

theorem removeFirstSeq_filter_ne (s : Nat) (l : List Msg) :
    (removeFirstSeq s l).filter (fun m => m.sequence != s) =
      l.filter (fun m => m.sequence != s) := by
  induction l with
  | nil => rfl
  | cons m rest ih =>
    by_cases hm : m.sequence = s
    · simp [removeFirstSeq, hm]
    · simp [removeFirstSeq, hm, ih]

theorem removeFirstSeq_filter_eq (s : Nat) (l : List Msg) :
    (removeFirstSeq s l).filter (fun m => m.sequence == s) =
      (l.filter (fun m => m.sequence == s)).tail := by
  induction l with
  | nil => rfl
  | cons m rest ih =>
    by_cases hm : m.sequence = s
    · simp [removeFirstSeq, hm]
    · simp [removeFirstSeq, hm, ih]

theorem removeFirstSeq_length (s : Nat) (l : List Msg)
    (h : ∃ m ∈ l, m.sequence = s) :
    (removeFirstSeq s l).length + 1 = l.length := by
  induction l with
  | nil => simp at h
  | cons m rest ih =>
    by_cases hm : m.sequence = s
    · simp [removeFirstSeq, hm]
    · have hrest : ∃ m' ∈ rest, m'.sequence = s := by
        rcases h with ⟨m', hmem, hs⟩
        rcases List.mem_cons.mp hmem with hEq | hmem'
        · exact absurd (hEq ▸ hs) hm
        · exact ⟨m', hmem', hs⟩
      simp [removeFirstSeq, hm, ih hrest]

/-- C6: `_remove_acknowledged_message` is an exact-match removal: every
entry whose sequence differs from the argument (in particular every entry
with a smaller sequence) survives with its multiplicity, and among entries
with the matching sequence only the first is dropped, decreasing the buffer
length by exactly one when a match exists. -/
theorem remove_acknowledged_exact (r : Redis) (u : String) (s : Nat) :
    ((_remove_acknowledged_message r u s).buffer u).filter
        (fun m => m.sequence != s) =
      (r.buffer u).filter (fun m => m.sequence != s) ∧
    ((_remove_acknowledged_message r u s).buffer u).filter
        (fun m => m.sequence == s) =
      ((r.buffer u).filter (fun m => m.sequence == s)).tail ∧
    ((∃ m ∈ r.buffer u, m.sequence = s) →
      ((_remove_acknowledged_message r u s).buffer u).length + 1 =
        (r.buffer u).length) := by
  refine ⟨?_, ?_, ?_⟩
  · simpa [_remove_acknowledged_message] using
      removeFirstSeq_filter_ne s (r.buffer u)
  · simpa [_remove_acknowledged_message] using
      removeFirstSeq_filter_eq s (r.buffer u)
  · intro h
    simpa [_remove_acknowledged_message] using
      removeFirstSeq_length s (r.buffer u) h

/-- C4: acknowledging a `(user, client, sequence)` triple while its
`client_ack` idempotency marker is present is a complete no-op: the call
returns the state unchanged, so the Replay Buffer, the durable `last_ack`
and the durable `min_sequence` low-water mark are all untouched. -/
theorem handle_ack_duplicate_noop (w : WS) (u c : String) (s : Nat)
    (h : w.redis.clientAck u c s = true) :
    handle_message_acknowledgement w u s c = w := by
  cases hA : w.active_connections u with
  | none => simp [handle_message_acknowledgement, hA]
  | some clients =>
    cases hg : getClient clients c with
    | none => simp [handle_message_acknowledgement, hA, hg]
    | some info => simp [handle_message_acknowledgement, hA, hg, h]

/-- Worker state holding a prior acknowledgement marker for
`("u1", "c1", 3)` and a registered connection `"c1"` of `"u1"`. -/
def dupAckWS : WS :=
  { redis := { emptyRedis with clientAck := updAck emptyRedis.clientAck "u1" "c1" 3 true }
    active_connections := fun x =>
      if x = "u1" then some [("c1", { websocket := 7, last_sequence := 2 })]
      else none
    worker_id := "w1" }

theorem handle_ack_duplicate_noop_witness :
    dupAckWS.redis.clientAck "u1" "c1" 3 = true ∧
      handle_message_acknowledgement dupAckWS "u1" 3 "c1" = dupAckWS :=
  ⟨by decide, handle_ack_duplicate_noop dupAckWS "u1" "c1" 3 (by decide)⟩

/-- C10: an acknowledgement for a `(user, client)` pair that is not in the
local connection registry returns before touching anything: no idempotency
marker is written, no `last_sequence` is updated, and the shared store is
exactly as before. -/
theorem handle_ack_unregistered_noop (w : WS) (u c : String) (s : Nat)
    (h : ∀ clients, w.active_connections u = some clients →
      getClient clients c = none) :
    handle_message_acknowledgement w u s c = w := by
  cases hA : w.active_connections u with
  | none => simp [handle_message_acknowledgement, hA]
  | some clients =>
    simp [handle_message_acknowledgement, hA, h clients hA]

theorem handle_ack_unregistered_noop_witness :
    (∀ clients, freshWS.active_connections "u1" = some clients →
        getClient clients "c1" = none) ∧
      handle_message_acknowledgement freshWS "u1" 3 "c1" = freshWS :=
  ⟨fun _ hc => Option.noConfusion hc,
    handle_ack_unregistered_noop freshWS "u1" "c1" 3
      fun _ hc => Option.noConfusion hc⟩

theorem getClient_setClient_same (l : List (String × ClientInfo))
    (c : String) (i : ClientInfo) :
    getClient (setClient l c i) c = some i := by
  induction l with
  | nil => simp [setClient, getClient]
  | cons p rest ih =>
    obtain ⟨c', i'⟩ := p
    by_cases hp : c' = c
    · simp [setClient, hp, getClient]
    · simp [setClient, hp, getClient, ih]

theorem getClient_removeClient_ne (l : List (String × ClientInfo))
    (c2 c : String) (h : c ≠ c2) :
    getClient (removeClient l c2) c = getClient l c := by
  induction l with
  | nil => rfl
  | cons p rest ih =>
    obtain ⟨c', i'⟩ := p
    by_cases hp : c' = c2
    · subst hp
      simp [removeClient, getClient, Ne.symm h]
    · by_cases hc : c' = c
      · simp [removeClient, hp, getClient, hc, h]
      · simp [removeClient, hp, getClient, hc, ih]

/-- C3: `connect` for a user whose durable last-acknowledged sequence is `K`
registers the new client with `last_sequence` seeded to `K`, and the replay
performed before `connect` returns delivers to that client exactly the
buffered messages with sequence strictly above `K` — a permutation of that
subset, in ascending sequence order, with nothing at or below `K`. -/
theorem connect_replays_missed (w : WS) (u cid : String) (ws now K : Nat)
    (hK : w.redis.lastAck u = some K) :
    (∃ clients, (connect w u cid ws now).1.active_connections u =
        some clients ∧
      getClient clients cid = some { websocket := ws, last_sequence := K }) ∧
    ((connect w u cid ws now).2).Perm
      ((w.redis.buffer u).filter (fun m => K < m.sequence)) ∧
    List.Sorted seqLE (connect w u cid ws now).2 ∧
    (∀ m ∈ (connect w u cid ws now).2, K < m.sequence) := by
  have hsent : (connect w u cid ws now).2 =
      List.insertionSort seqLE
        ((w.redis.buffer u).filter (fun m => K < m.sequence)) := by
    simp only [connect, hK, _send_missed_messages, retrieve_buffered_messages,
      updKey_same, getClient_setClient_same]
  refine ⟨?_, ?_, ?_, ?_⟩
  · refine ⟨setClient (match w.active_connections u with
        | none => []
        | some cs => cs) cid { websocket := ws, last_sequence := K }, ?_, ?_⟩
    · simp only [connect, hK, updKey_same]
    · exact getClient_setClient_same _ _ _
  · rw [hsent]
    exact List.perm_insertionSort seqLE _
  · rw [hsent]
    exact List.sorted_insertionSort seqLE _
  · intro m hm
    rw [hsent] at hm
    have := List.mem_insertionSort seqLE |>.mp hm
    simpa using (List.mem_filter.mp this).2

/-- Store holding three buffered messages for `"u1"` (out of order, as the
buffer keeps newest-first while replay must re-sort) and a durable last-ack
of 1. -/
def replayRedis : Redis :=
  { emptyRedis with
      lastAck := updKey emptyRedis.lastAck "u1" (some 1)
      buffer := updKey emptyRedis.buffer "u1"
        [{ sequence := 3, payload := "c" }, { sequence := 1, payload := "a" },
         { sequence := 2, payload := "b" }] }

/-- A worker with no local connections over `replayRedis`. -/
def replayWS : WS :=
  { redis := replayRedis
    active_connections := fun _ => none
    worker_id := "w1" }

theorem connect_replays_missed_witness :
    replayWS.redis.lastAck "u1" = some 1 ∧
    ((∃ clients, (connect replayWS "u1" "c9" 7 0).1.active_connections "u1" =
        some clients ∧
      getClient clients "c9" = some { websocket := 7, last_sequence := 1 }) ∧
    ((connect replayWS "u1" "c9" 7 0).2).Perm
      ((replayWS.redis.buffer "u1").filter (fun m => 1 < m.sequence)) ∧
    List.Sorted seqLE (connect replayWS "u1" "c9" 7 0).2 ∧
    (∀ m ∈ (connect replayWS "u1" "c9" 7 0).2, 1 < m.sequence)) :=
  ⟨by decide, connect_replays_missed replayWS "u1" "c9" 7 0 1 (by decide)⟩

/-- C5: no send path delivers a stale message.  On the fan-out path
(`_send_message_to_user`, run by the per-user listener for each published
message) every `(client, message)` pair delivered has the message's sequence
strictly above that client's `last_sequence`; on the replay path
(`_send_missed_messages`, run by `connect`) every message delivered to the
client has sequence strictly above that client's `last_sequence`. -/
theorem sends_above_last_sequence (w : WS) (u : String) (m : Msg)
    (clients : List (String × ClientInfo)) (cid : String) (info : ClientInfo)
    (hA : w.active_connections u = some clients)
    (hg : getClient clients cid = some info) :
    (∀ p ∈ _send_message_to_user w u m,
      p.2 = m ∧
        ∃ i : ClientInfo, (p.1, i) ∈ clients ∧ i.last_sequence < m.sequence) ∧
    (∀ m' ∈ _send_missed_messages w u cid,
      info.last_sequence < m'.sequence) := by
  constructor
  · intro p hp
    simp only [_send_message_to_user, hA] at hp
    rcases List.mem_map.mp hp with ⟨ci, hci, hpe⟩
    have hfm := List.mem_filter.mp hci
    refine ⟨by rw [← hpe], ⟨ci.2, ?_, by simpa using hfm.2⟩⟩
    rw [← hpe]
    simpa using hfm.1
  · intro m' hm'
    simp only [_send_missed_messages, hA, hg, retrieve_buffered_messages] at hm'
    have hmem := (List.mem_insertionSort seqLE (l := _)).mp hm'
    simpa using (List.mem_filter.mp hmem).2

/-- Two local clients of `"u1"`, one lagging (`last_sequence = 0`) and one
ahead (`last_sequence = 5`). -/
def fanClients : List (String × ClientInfo) :=
  [("c1", { websocket := 1, last_sequence := 0 }),
   ("c2", { websocket := 2, last_sequence := 5 })]

/-- A worker holding `fanClients` for `"u1"`, with two buffered messages. -/
def fanWS : WS :=
  { redis := { emptyRedis with
      buffer := updKey emptyRedis.buffer "u1"
        [{ sequence := 4, payload := "d" }, { sequence := 1, payload := "a" }] }
    active_connections := fun x => if x = "u1" then some fanClients else none
    worker_id := "w1" }

theorem sends_above_last_sequence_witness :
    fanWS.active_connections "u1" = some fanClients ∧
    getClient fanClients "c1" = some { websocket := 1, last_sequence := 0 } ∧
    ((∀ p ∈ _send_message_to_user fanWS "u1" { sequence := 4, payload := "d" },
      p.2 = { sequence := 4, payload := "d" } ∧
        ∃ i : ClientInfo, (p.1, i) ∈ fanClients ∧
          i.last_sequence < (4 : Nat)) ∧
    (∀ m' ∈ _send_missed_messages fanWS "u1" "c1",
      (0 : Nat) < m'.sequence)) :=
  ⟨by decide, by decide,
    sends_above_last_sequence fanWS "u1" { sequence := 4, payload := "d" }
      fanClients "c1" { websocket := 1, last_sequence := 0 }
      (by decide) (by decide)⟩

theorem handle_ack_reduction (w : WS) (u c : String) (s : Nat)
    (clients : List (String × ClientInfo)) (info : ClientInfo)
    (hA : w.active_connections u = some clients)
    (hg : getClient clients c = some info)
    (hm : w.redis.clientAck u c s = false) :
    handle_message_acknowledgement w u s c =
      (let clients1 := setClient clients c { info with last_sequence := s }
       let w1 : WS :=
         { w with
             redis := { w.redis with
               clientAck := updAck w.redis.clientAck u c s true }
             active_connections :=
               updKey w.active_connections u (some clients1) }
       match w.redis.minSeq u with
       | some m0 => if s ≤ m0 then w1 else ackCompletion w1 u s clients1
       | none => ackCompletion w1 u s clients1) := by
  simp only [handle_message_acknowledgement, hA, hg, hm, Bool.false_eq_true,
    if_false]

/-- C8: the completion guard of `handle_message_acknowledgement`.  After the
idempotency marker is set and the client's `last_sequence` recorded: (1) if
the durable low-water mark already covers the acked sequence nothing else is
touched — buffer, `last_ack`, `min_sequence` and the completion lock are as
before; (2) otherwise, when the minimum `last_sequence` over the locally
known clients reaches the acked sequence and the `completion_lock` key is
free, the call writes the new durable low-water mark, writes the durable
`last_ack`, removes the matching buffer entry, and leaves the lock released;
(3) when that lock is already held, it writes none of those and does not
retry. -/
theorem handle_ack_completion_guard (w : WS) (u c : String) (s : Nat)
    (clients : List (String × ClientInfo)) (info : ClientInfo)
    (hA : w.active_connections u = some clients)
    (hg : getClient clients c = some info)
    (hm : w.redis.clientAck u c s = false) :
    ((∃ m0, w.redis.minSeq u = some m0 ∧ s ≤ m0) →
      (handle_message_acknowledgement w u s c).redis.buffer =
          w.redis.buffer ∧
        (handle_message_acknowledgement w u s c).redis.lastAck =
          w.redis.lastAck ∧
        (handle_message_acknowledgement w u s c).redis.minSeq =
          w.redis.minSeq ∧
        (handle_message_acknowledgement w u s c).redis.completionLock =
          w.redis.completionLock) ∧
    ((∀ m0, w.redis.minSeq u = some m0 → m0 < s) →
      s ≤ minLastSeq (setClient clients c { info with last_sequence := s }) →
      w.redis.completionLock u s = false →
      (handle_message_acknowledgement w u s c).redis.minSeq u =
          some (minLastSeq
            (setClient clients c { info with last_sequence := s })) ∧
        (handle_message_acknowledgement w u s c).redis.lastAck u = some s ∧
        (handle_message_acknowledgement w u s c).redis.buffer u =
          removeFirstSeq s (w.redis.buffer u) ∧
        (handle_message_acknowledgement w u s c).redis.completionLock u s =
          false) ∧
    ((∀ m0, w.redis.minSeq u = some m0 → m0 < s) →
      s ≤ minLastSeq (setClient clients c { info with last_sequence := s }) →
      w.redis.completionLock u s = true →
      (handle_message_acknowledgement w u s c).redis.buffer =
          w.redis.buffer ∧
        (handle_message_acknowledgement w u s c).redis.lastAck =
          w.redis.lastAck ∧
        (handle_message_acknowledgement w u s c).redis.minSeq =
          w.redis.minSeq) := by
  rw [handle_ack_reduction w u c s clients info hA hg hm]
  refine ⟨?_, ?_, ?_⟩
  · rintro ⟨m0, hm0, hs⟩
    simp [hm0, hs]
  · intro hcov hmin hlock
    cases hmq : w.redis.minSeq u with
    | none =>
      simp [ackCompletion, hmin, hlock, _remove_acknowledged_message]
    | some m0 =>
      have hlt : ¬ s ≤ m0 := Nat.not_le.mpr (hcov m0 hmq)
      simp [hlt, ackCompletion, hmin, hlock, _remove_acknowledged_message]
  · intro hcov hmin hlock
    cases hmq : w.redis.minSeq u with
    | none =>
      simp [ackCompletion, hmin, hlock]
    | some m0 =>
      have hlt : ¬ s ≤ m0 := Nat.not_le.mpr (hcov m0 hmq)
      simp [hlt, ackCompletion, hmin, hlock]

/-- A single local client of `"u1"` that has not acknowledged anything. -/
def ackClients : List (String × ClientInfo) :=
  [("c1", { websocket := 7, last_sequence := 0 })]

/-- A worker holding `ackClients` for `"u1"` with one buffered message. -/
def ackWS : WS :=
  { redis := { emptyRedis with
      buffer := updKey emptyRedis.buffer "u1"
        [{ sequence := 1, payload := "a" }] }
    active_connections := fun x => if x = "u1" then some ackClients else none
    worker_id := "w1" }

theorem handle_ack_completion_guard_witness :
    ackWS.active_connections "u1" = some ackClients ∧
    getClient ackClients "c1" =
      some { websocket := 7, last_sequence := 0 } ∧
    ackWS.redis.clientAck "u1" "c1" 1 = false ∧
    (((∃ m0, ackWS.redis.minSeq "u1" = some m0 ∧ 1 ≤ m0) →
      (handle_message_acknowledgement ackWS "u1" 1 "c1").redis.buffer =
          ackWS.redis.buffer ∧
        (handle_message_acknowledgement ackWS "u1" 1 "c1").redis.lastAck =
          ackWS.redis.lastAck ∧
        (handle_message_acknowledgement ackWS "u1" 1 "c1").redis.minSeq =
          ackWS.redis.minSeq ∧
        (handle_message_acknowledgement ackWS "u1" 1 "c1").redis.completionLock =
          ackWS.redis.completionLock) ∧
    ((∀ m0, ackWS.redis.minSeq "u1" = some m0 → m0 < 1) →
      1 ≤ minLastSeq (setClient ackClients "c1"
        { websocket := 7, last_sequence := 1 }) →
      ackWS.redis.completionLock "u1" 1 = false →
      (handle_message_acknowledgement ackWS "u1" 1 "c1").redis.minSeq "u1" =
          some (minLastSeq (setClient ackClients "c1"
            { websocket := 7, last_sequence := 1 })) ∧
        (handle_message_acknowledgement ackWS "u1" 1 "c1").redis.lastAck "u1" =
          some 1 ∧
        (handle_message_acknowledgement ackWS "u1" 1 "c1").redis.buffer "u1" =
          removeFirstSeq 1 (ackWS.redis.buffer "u1") ∧
        (handle_message_acknowledgement ackWS "u1" 1 "c1").redis.completionLock
          "u1" 1 = false) ∧
    ((∀ m0, ackWS.redis.minSeq "u1" = some m0 → m0 < 1) →
      1 ≤ minLastSeq (setClient ackClients "c1"
        { websocket := 7, last_sequence := 1 }) →
      ackWS.redis.completionLock "u1" 1 = true →
      (handle_message_acknowledgement ackWS "u1" 1 "c1").redis.buffer =
          ackWS.redis.buffer ∧
        (handle_message_acknowledgement ackWS "u1" 1 "c1").redis.lastAck =
          ackWS.redis.lastAck ∧
        (handle_message_acknowledgement ackWS "u1" 1 "c1").redis.minSeq =
          ackWS.redis.minSeq)) :=
  ⟨by decide, by decide, by decide,
    handle_ack_completion_guard ackWS "u1" "c1" 1 ackClients
      { websocket := 7, last_sequence := 0 } (by decide) (by decide)
      (by decide)⟩

/-- C9: a targeted `handle_force_disconnect(user, client_id)` on the worker
holding the client closes exactly that client's transport and removes
exactly its registry entry: the returned closed-handle list is that one
websocket, the user's local registry afterwards is the old one minus that
client, lookups of every other client of the user are unchanged, and every
other user's local registry is untouched. -/
theorem force_disconnect_frame (w : WS) (u c2 : String)
    (clients : List (String × ClientInfo)) (info2 : ClientInfo)
    (hA : w.active_connections u = some clients)
    (hg : getClient clients c2 = some info2)
    (hne : removeClient clients c2 ≠ []) :
    (handle_force_disconnect w u (some c2)).2 = [info2.websocket] ∧
    (handle_force_disconnect w u (some c2)).1.active_connections u =
      some (removeClient clients c2) ∧
    (∀ c, c ≠ c2 →
      getClient (removeClient clients c2) c = getClient clients c) ∧
    (∀ u', u' ≠ u →
      (handle_force_disconnect w u (some c2)).1.active_connections u' =
        w.active_connections u') := by
  have h1 : handle_force_disconnect w u (some c2) =
      (disconnect w u (some c2), [info2.websocket]) := by
    simp [handle_force_disconnect, hA, hg]
  have h2 : (disconnect w u (some c2)).active_connections =
      updKey w.active_connections u (some (removeClient clients c2)) := by
    simp only [disconnect, hA, hne, if_false]
  refine ⟨by rw [h1], ?_, ?_, ?_⟩
  · rw [h1]
    simp [h2]
  · intro c hc
    exact getClient_removeClient_ne clients c2 c hc
  · intro u' hu'
    rw [h1]
    simpa [h2] using updKey_other w.active_connections u
      (some (removeClient clients c2)) u' hu'

/-- Two local clients of `"u1"`: `"c2"` to be force-disconnected and `"c1"`
to be left alone. -/
def fdClients : List (String × ClientInfo) :=
  [("c1", { websocket := 1, last_sequence := 4 }),
   ("c2", { websocket := 2, last_sequence := 3 })]

/-- A worker holding `fdClients` for `"u1"`, with matching cross-worker
connection records. -/
def fdWS : WS :=
  { redis := { emptyRedis with
      userConnections := updKey emptyRedis.userConnections "u1"
        (some [{ worker_id := "w1", client_id := "c1", connected_at := 0 },
               { worker_id := "w1", client_id := "c2", connected_at := 1 }]) }
    active_connections := fun x => if x = "u1" then some fdClients else none
    worker_id := "w1" }

theorem force_disconnect_frame_witness :
    fdWS.active_connections "u1" = some fdClients ∧
    getClient fdClients "c2" = some { websocket := 2, last_sequence := 3 } ∧
    removeClient fdClients "c2" ≠ [] ∧
    ((handle_force_disconnect fdWS "u1" (some "c2")).2 = [2] ∧
    (handle_force_disconnect fdWS "u1" (some "c2")).1.active_connections "u1" =
      some (removeClient fdClients "c2") ∧
    (∀ c, c ≠ "c2" →
      getClient (removeClient fdClients "c2") c = getClient fdClients c) ∧
    (∀ u', u' ≠ "u1" →
      (handle_force_disconnect fdWS "u1" (some "c2")).1.active_connections u' =
        fdWS.active_connections u')) :=
  ⟨by decide, by decide, by decide,
    force_disconnect_frame fdWS "u1" "c2" fdClients
      { websocket := 2, last_sequence := 3 } (by decide) (by decide)
      (by decide)⟩
